import Mathlib

/-!
# Houses: paginated listing fetch with retry, and per-record image download

A shallow embedding of `main.go`.  Every Go function that touches the outside
world (HTTP client, JSON decoder, file system, logger, standard output, sleeping,
the record channel) becomes a function on an explicit `World`: the answers of the
outside world are fields of the record, the effects are append-only traces.
A Go panic is an explicit `Outcome.panicked` result.

The producer side (`main` loop, `getPageRetryable`, `getPage`) and the consumer
side (`launchWorker`, `processWorker`, `download`) are each embedded as sequential
code; a send on `houseChannel` is the append of the record to the channel trace.
-/

namespace Houses

set_option maxRecDepth 20000

/-! ## Constants (main.go, lines 18-26) -/

def outputFolder : String := "output"
def totalPages : Int := 10
def pageSize : Int := 10
def retries : Int := 20
def retryDelay : Int := 100
def fileNameComponentSeparator : String := "-"
def enableConcurrentOptimization : Bool := true
def channelSize : Nat := 50
def totalWorkers : Nat := 5

/-- Constant `http.StatusOK`. -/
def StatusOK : Int := 200

/-! ## Data model (main.go, lines 32-44) -/

/-- A Go `error` value is represented by its text; the nil error is `none`. -/
abbrev GoError := String

structure House where
  ID : Int
  Address : String
  Homeowner : String
  Price : Int
  PhotoURL : String
deriving DecidableEq, Repr

structure Data where
  Houses : List House
  Message : String
  Ok : Bool
deriving DecidableEq, Repr

/-- The part of `http.Response` the program reads.  `Body` is what reading the body
to its end yields: all the bytes, or a read error. -/
structure Response where
  StatusCode : Int
  Status : String
  Body : Except GoError String

/-- Result of running a Go function: it returns a value, or it panics. -/
inductive Outcome (α : Type) where
  | returned (a : α)
  | panicked (msg : String)
deriving DecidableEq, Repr

/-- The outside world as seen by one thread of the program.

Answers of the collaborators:
* `httpGet n url` : the two results `(resp, err)` of the call of `Client.Get(url)` that is
  made when `n` requests have been made before it (`none` is Go's nil);
* `jsonUnmarshal body` : the two results `(data, err)` of `json.Unmarshal` into a `Data`;
* `osCreate path` : the error of `os.Create(path)`, `none` when the file is created;
* `fileWrite path` : the error of writing the copied bytes to the file, `none` on success.

Effects, oldest first:
* `requests` : the URLs passed to `Client.Get`;
* `houseChannel` : the records sent on `houseChannel`;
* `created` : the paths passed to `os.Create`;
* `files` : the files written by `io.Copy`, with their contents;
* `logged` : the messages given to `log.Println`;
* `stdout` : the lines given to `fmt.Println`;
* `slept` : the durations, in milliseconds, given to `time.Sleep`. -/
structure World where
  httpGet : Nat → String → Option Response × Option GoError
  jsonUnmarshal : String → Data × Option GoError
  osCreate : String → Option GoError
  fileWrite : String → Option GoError
  requests : List String
  houseChannel : List House
  created : List String
  files : List (String × String)
  logged : List String
  stdout : List String
  slept : List Int

/-- Message of the runtime panic raised by a field access through a nil pointer. -/
def nilDereference : String :=
  "runtime error: invalid memory address or nil pointer dereference"

/-! ## Library functions -/

/-- Function `strconv.Itoa`: the decimal text of an integer. -/
def Itoa (n : Int) : String := toString n

def logPrintln (msg : String) (w : World) : World :=
  { w with logged := w.logged ++ [msg] }

def fmtPrintln (line : String) (w : World) : World :=
  { w with stdout := w.stdout ++ [line] }

/-- Function `time.Sleep`, the argument in milliseconds. -/
def timeSleep (millis : Int) (w : World) : World :=
  { w with slept := w.slept ++ [millis] }

/-- Method `api.Client.Get(url)`: records the request and returns the world's answer. -/
def clientGet (url : String) (w : World) : (Option Response × Option GoError) × World :=
  (w.httpGet w.requests.length url, { w with requests := w.requests ++ [url] })

/-- Function `os.Create(path)`: the file (named by its path, `none` for a nil file), the error. -/
def osCreate (path : String) (w : World) : (Option String × Option GoError) × World :=
  let w1 := { w with created := w.created ++ [path] }
  match w.osCreate path with
  | some e => ((none, some e), w1)
  | none => ((some path, none), w1)

/-- Function `io.Copy(file, body)`: reads the body to its end and writes it to the file.
A nil file is rejected with `os.ErrInvalid`; a read error or a write error is returned. -/
def ioCopy (file : Option String) (body : Except GoError String) (w : World) :
    Option GoError × World :=
  match file with
  | none => (some "invalid argument", w)
  | some path =>
    match body with
    | .error e => (some e, w)
    | .ok bytes =>
      match w.fileWrite path with
      | some e => (some e, w)
      | none => (none, { w with files := w.files ++ [(path, bytes)] })

def isPathSeparator (c : Char) : Bool := c = '/'

/-- Loop of `filepath.Ext`, reading the path from its end: `acc` holds the bytes already
passed, which contain neither a dot nor a separator. -/
def extScan : List Char → List Char → List Char
  | [], _ => []
  | c :: before, acc =>
    if isPathSeparator c then []
    else if c = '.' then c :: acc
    else extScan before (c :: acc)

/-- Function `filepath.Ext`: the suffix beginning at the final dot in the final element of
the path, empty if there is no dot. -/
def Ext (path : String) : String := String.mk (extScan path.data.reverse [])

/-- Where the scan of `filepath.Clean` stands: at the start of a path element, inside an
element that is being copied, or on the second dot of a `..` element. -/
inductive CleanState where
  | start
  | copying
  | secondDot
deriving DecidableEq, Repr

/-- The unread bytes are empty or begin with a separator (`r == n || IsPathSeparator(path[r])`). -/
def atElemEnd : List Char → Bool
  | [] => true
  | c :: _ => isPathSeparator c

/-- Backtracking of `filepath.Clean` on a `..` element, after `out.w--`: while
`out.w > dotdot` and the byte at `out.w` is not a separator, `out.w--`.  Returns `out.w`. -/
def cleanBacktrack (out : List Char) (dotdot : Nat) : Nat → Nat
  | 0 => 0
  | w + 1 =>
    if w + 1 > dotdot && !isPathSeparator (out.getD (w + 1) '/') then cleanBacktrack out dotdot w
    else w + 1

/-- Main loop of `filepath.Clean` (Unix), one byte of the unread path at a time.
`out` is the output buffer, `dotdot` the index in it where `..` must stop. -/
def cleanScan (rooted : Bool) : List Char → CleanState → List Char → Nat → List Char
  | [], _, out, _ => out
  | c :: rest, .copying, out, dotdot =>
    if isPathSeparator c then cleanScan rooted rest .start out dotdot
    else cleanScan rooted rest .copying (out ++ [c]) dotdot
  | _ :: rest, .secondDot, out, dotdot => cleanScan rooted rest .start out dotdot
  | c :: rest, .start, out, dotdot =>
    if isPathSeparator c then
      -- empty path element
      cleanScan rooted rest .start out dotdot
    else if c = '.' && atElemEnd rest then
      -- . element
      cleanScan rooted rest .start out dotdot
    else if c = '.' && rest.head? = some '.' && atElemEnd rest.tail then
      -- .. element: remove to last separator
      if out.length > dotdot then
        cleanScan rooted rest .secondDot
          (out.take (cleanBacktrack out dotdot (out.length - 1))) dotdot
      else if !rooted then
        let out1 := if out.length > 0 then out ++ ['/'] else out
        cleanScan rooted rest .secondDot (out1 ++ ['.', '.']) (out1.length + 2)
      else
        cleanScan rooted rest .secondDot out dotdot
    else
      -- real path element: add slash if needed, copy element
      let out1 := if (rooted && out.length != 1) || (!rooted && out.length != 0)
        then out ++ ['/'] else out
      cleanScan rooted rest .copying (out1 ++ [c]) dotdot

/-- Function `filepath.Clean` (Unix): the shortest path name equivalent to `path`. -/
def Clean (path : String) : String :=
  match path.data with
  | [] => "."
  | c :: rest =>
    let out :=
      if isPathSeparator c then cleanScan true rest .start ['/'] 1
      else cleanScan false (c :: rest) .start [] 0
    if out.length = 0 then "." else String.mk out

/-- Function `filepath.Join` (Unix): joins the elements from the first non-empty one with
separators, and cleans the result; the empty string if every element is empty. -/
def Join : List String → String
  | [] => ""
  | e :: rest => if e != "" then Clean ("/".intercalate (e :: rest)) else Join rest

/-! ## The program (main.go) -/

/-- Function `buildUrl` (main.go, lines 117-119). -/
def buildUrl (page : Int) (perPage : Int) : String :=
  "http://app-homevision-staging.herokuapp.com/api_project/houses?page=" ++ Itoa page
    ++ "&per_page=" ++ Itoa perPage

/-- Function `unmarshal` (main.go, lines 157-161). -/
def unmarshal (body : String) (w : World) : Data × Option GoError :=
  w.jsonUnmarshal body

/-- Function `buildPath` (main.go, lines 163-166). -/
def buildPath (house : House) : String :=
  let ext := Ext house.PhotoURL
  Join [outputFolder, Itoa house.ID ++ fileNameComponentSeparator ++ house.Address ++ ext]

/-- Function `download` (main.go, lines 168-187).  After a failed `Client.Get` the response
`res` is nil, and the statement `defer res.Body.Close()` reads the field `Body` through it. -/
def download (house : House) (w : World) : Outcome Unit × World :=
  let ((file, err), w1) := osCreate (buildPath house) w
  let w2 := match err with
    | some e => logPrintln e w1
    | none => w1
  -- defer file.Close()
  let ((res, err1), w3) := clientGet house.PhotoURL w2
  let w4 := match err1 with
    | some e => logPrintln e w3
    | none => w3
  -- defer res.Body.Close()
  match res with
  | none => (.panicked nilDereference, w4)
  | some r =>
    let (err2, w5) := ioCopy file r.Body w4
    match err2 with
    | some e => (.returned (), logPrintln e w5)
    | none => (.returned (), w5)

/-- Function `processWorker` (main.go, lines 83-87). -/
def processWorker (wk : Int) (house : House) (w : World) : Outcome Unit × World :=
  let w1 := logPrintln ("Worker " ++ Itoa wk ++ " started  download ID= " ++ Itoa house.ID) w
  match download house w1 with
  | (.panicked msg, w2) => (.panicked msg, w2)
  | (.returned _, w2) =>
    (.returned (), logPrintln ("Worker " ++ Itoa wk ++ " finished download ID= " ++ Itoa house.ID) w2)

/-- Function `launchWorker` (main.go, lines 75-81), run on the records this worker receives
from the channel, in the order it receives them, until the channel is closed and drained. -/
def launchWorker (wk : Int) : List House → World → Outcome Unit × World
  | [], w => (.returned (), w)
  | house :: queue, w =>
    match processWorker wk house w with
    | (.panicked msg, w1) => (.panicked msg, w1)
    | (.returned _, w1) => launchWorker wk queue w1

/-- Function `downloadAsync` (main.go, lines 89-91): `houseChannel <- house`. -/
def downloadAsync (house : House) (w : World) : World :=
  { w with houseChannel := w.houseChannel ++ [house] }

/-- Loop `for _, house := range data.Houses` of `getPage` (main.go, lines 146-152). -/
def rangeHouses (concurrent : Bool) : List House → World → Outcome Unit × World
  | [], w => (.returned (), w)
  | house :: houses, w =>
    if concurrent then
      rangeHouses concurrent houses (downloadAsync house w)
    else
      match download house w with
      | (.panicked msg, w1) => (.panicked msg, w1)
      | (.returned _, w1) => rangeHouses concurrent houses w1

/-- Method `API.getPage` (main.go, lines 121-155), with the two constants it reads,
`enableConcurrentOptimization` and `pageSize`, as parameters. -/
def getPageWith (concurrent : Bool) (perPage : Int) (page : Int) (w : World) :
    Outcome (Bool × Option GoError) × World :=
  let ((resp, getErr), w1) := clientGet (buildUrl page perPage) w
  match getErr with
  | some e => (.returned (false, getErr), logPrintln e w1)
  | none =>
    match resp with
    | none => (.panicked nilDereference, w1)
    | some r =>
      match r.Body with
      | .error readErr => (.returned (false, getErr), logPrintln readErr w1)
      | .ok body =>
        if r.StatusCode != StatusOK then
          let msg := "API returned unexpected response status = " ++ r.Status
            ++ " in page = " ++ Itoa page
          (.returned (false, some msg), logPrintln msg w1)
        else
          match unmarshal body w1 with
          | (_, some jsonErr) =>
            (.returned (false, some ("API returned inconsistent json in page = " ++ Itoa page)),
              logPrintln jsonErr w1)
          | (data, none) =>
            if !data.Ok then
              let msg := "API returned not ok response in page = " ++ Itoa page
              (.returned (false, some msg), logPrintln msg w1)
            else
              match rangeHouses concurrent data.Houses w1 with
              | (.panicked msg, w2) => (.panicked msg, w2)
              | (.returned _, w2) =>
                let isLastPage :=
                  decide ((data.Houses.length : Int) < perPage) || decide (data.Houses.length = 0)
                (.returned (isLastPage, none), w2)

/-- Method `API.getPage` (main.go, lines 121-155). -/
def getPage (page : Int) (w : World) : Outcome (Bool × Option GoError) × World :=
  getPageWith enableConcurrentOptimization pageSize page w

/-- Loop of `getPageRetryable` (main.go, lines 104-114): `remaining` is the number of
iterations left, `retries - attempt + 1`; `err` is the variable `err`. -/
def getPageRetryableLoop (concurrent : Bool) (perPage : Int) (page : Int) :
    Nat → Int → Option GoError → World → Outcome (Bool × Option GoError) × World
  | 0, _, err, w =>
    (.returned (false, err),
      logPrintln ("failing after all retries, consider increasing number of retries, "
        ++ "current value = " ++ Itoa retries) w)
  | remaining + 1, attempt, _, w =>
    match getPageWith concurrent perPage page w with
    | (.panicked msg, w1) => (.panicked msg, w1)
    | (.returned (isLastPage, none), w1) => (.returned (isLastPage, none), w1)
    | (.returned (_, some e), w1) =>
      let sleepMillis := (attempt - 1) * retryDelay
      getPageRetryableLoop concurrent perPage page remaining (attempt + 1) (some e)
        (timeSleep sleepMillis w1)

/-- Function `getPageRetryable` (main.go, lines 101-115), with the constants read by
`getPage` as parameters. -/
def getPageRetryableWith (concurrent : Bool) (perPage : Int) (page : Int) (w : World) :
    Outcome (Bool × Option GoError) × World :=
  getPageRetryableLoop concurrent perPage page retries.toNat 1 none w

/-- Function `getPageRetryable` (main.go, lines 101-115). -/
def getPageRetryable (page : Int) (w : World) : Outcome (Bool × Option GoError) × World :=
  getPageRetryableWith enableConcurrentOptimization pageSize page w

/-- How the loop of `main` ends: it breaks (the fetch is complete), `log.Fatal(err)` stops
the process, or a panic unwinds it. -/
inductive DriverResult where
  | done
  | fatal (err : GoError)
  | panicked (msg : String)
deriving DecidableEq, Repr

/-- Loop of `main` (main.go, lines 54-67) from the value `page` of the variable `page`;
`none` when the fuel runs out before the loop ends. -/
def mainLoop : Nat → Int → World → Option (DriverResult × World)
  | 0, _, _ => none
  | fuel + 1, page, w =>
    let w1 := fmtPrintln ("Processing page  " ++ Itoa page) w
    match getPageRetryable page w1 with
    | (.panicked msg, w2) => some (.panicked msg, w2)
    | (.returned (_, some err), w2) => some (.fatal err, logPrintln err w2)
    | (.returned (isLastPage, none), w2) =>
      if isLastPage then some (.done, w2)
      else
        let page1 := page + 1
        if page1 > totalPages then some (.done, w2)
        else mainLoop fuel page1 w2

/-! ## Notions used to state the properties -/

/-- The call of `getPage` failed: it returned a non-nil error. -/
def failed : Outcome (Bool × Option GoError) → Bool
  | .returned (_, some _) => true
  | _ => false

/-- World in which `getPageRetryable` makes its next call of `getPage` after `i` more failed
attempts, starting in world `w` with attempt number `attempt`: each failed attempt is followed
by the sleep of the loop. -/
def attemptWorld (concurrent : Bool) (perPage : Int) (page : Int) : Int → World → Nat → World
  | _, w, 0 => w
  | attempt, w, i + 1 =>
    attemptWorld concurrent perPage page (attempt + 1)
      (timeSleep ((attempt - 1) * retryDelay) (getPageWith concurrent perPage page w).2) i

/-- World in which `getPageRetryable page`, called in world `w`, makes attempt `i + 1`, the
attempts `1` to `i` having failed. -/
def retryWorld (page : Int) (w : World) (i : Nat) : World :=
  attemptWorld enableConcurrentOptimization pageSize page 1 w i

/-- World in which the loop of `main` calls `getPageRetryable` for page `page + i`, when it
enters with page `page` in world `w` and none of the `i` pages before stopped it. -/
def pageWorld : Int → World → Nat → World
  | page, w, 0 => fmtPrintln ("Processing page  " ++ Itoa page) w
  | page, w, i + 1 =>
    pageWorld (page + 1)
      (getPageRetryable page (fmtPrintln ("Processing page  " ++ Itoa page) w)).2 i

/-- The parsed records of the response that a call `getPage page` receives in world `w`:
the records of the decoded payload; none when no body was read or decoded. -/
def parsedRecords (perPage : Int) (page : Int) (w : World) : List House :=
  match w.httpGet w.requests.length (buildUrl page perPage) with
  | (some r, none) =>
    match r.Body with
    | .ok body =>
      match w.jsonUnmarshal body with
      | (data, none) => data.Houses
      | (_, some _) => []
    | .error _ => []
  | _ => []

/-- World in which `getPage` reaches its loop over the records, or returns for want of a body:
the world after the request, with the read error logged when the body could not be read. -/
def afterRequest (perPage : Int) (page : Int) (w : World) : World :=
  match w.httpGet w.requests.length (buildUrl page perPage) with
  | (some r, none) =>
    match r.Body with
    | .ok _ => (clientGet (buildUrl page perPage) w).2
    | .error readErr => logPrintln readErr (clientGet (buildUrl page perPage) w).2
  | _ => (clientGet (buildUrl page perPage) w).2

/-- World after `download` has been called on each record of `hs`, once and in the order of
`hs`, starting in world `w`. -/
def downloadedWorld (hs : List House) (w : World) : World :=
  hs.foldl (fun w1 h => (download h w1).2) w

/-- Text `m` occurs in text `e`. -/
def containsText (e m : String) : Prop := m.data <:+: e.data

instance containsTextDecidable (e m : String) : Decidable (containsText e m) := by
  unfold containsText
  infer_instance

/-! ## Sample inputs -/

/-- The record of `test/data/okSample1.json`. -/
def sampleHouse : House :=
  { ID := 1
    Address := "4 Pumpkin Hill Street Antioch, TN 37013"
    Homeowner := "Nicole Bone"
    Price := 105124
    PhotoURL := "https://image.shutterstock.com/image-photo/big-custom-made-luxury-house-260nw-374099713.jpg" }

/-- A record whose address holds two consecutive slashes. -/
def slashHouse : House :=
  { ID := 1
    Address := "7 A//B St"
    Homeowner := "Nicole Bone"
    Price := 105124
    PhotoURL := "https://image.shutterstock.com/image-photo/big-custom-made-luxury-house-260nw-374099713.jpg" }

def streetHouse (i : Nat) : House :=
  { ID := i
    Address := Itoa i ++ " Elm St"
    Homeowner := "Bo"
    Price := 1
    PhotoURL := "https://i.co/" ++ Itoa i ++ ".jpg" }

/-- A page of `n` records, with identifiers `0` to `n - 1`. -/
def streetHouses (n : Nat) : List House := (List.range n).map streetHouse

def houseJson (h : House) : String :=
  "\x7b\"id\":" ++ Itoa h.ID ++ ",\"address\":\"" ++ h.Address ++ "\",\"homeowner\":\""
    ++ h.Homeowner ++ "\",\"price\":" ++ Itoa h.Price ++ ",\"photoURL\":\"" ++ h.PhotoURL
    ++ "\"\x7d"

/-- Payload of a successful page holding the records `hs`. -/
def pageBody (hs : List House) : String :=
  "\x7b\"houses\":[" ++ ",".intercalate (hs.map houseJson) ++ "],\"ok\":true\x7d"

/-- Payload of `test/data/notOkSample1.json`. -/
def notOkBody : String := "\x7b\"message\":\"Service Unavailable\",\"ok\":false\x7d"

/-- What `json.Unmarshal` answers on the sample payloads. -/
def sampleUnmarshal (body : String) : Data × Option GoError :=
  if body = notOkBody then ({ Houses := [], Message := "Service Unavailable", Ok := false }, none)
  else if body = pageBody [] then ({ Houses := [], Message := "", Ok := true }, none)
  else if body = pageBody [sampleHouse] then
    ({ Houses := [sampleHouse], Message := "", Ok := true }, none)
  else if body = pageBody (streetHouses 9) then
    ({ Houses := streetHouses 9, Message := "", Ok := true }, none)
  else if body = pageBody (streetHouses 10) then
    ({ Houses := streetHouses 10, Message := "", Ok := true }, none)
  else ({ Houses := [], Message := "", Ok := false }, some "unexpected end of JSON input")

/-- A fresh world (no effect yet, a working file system) whose HTTP client answers `answers`. -/
def sampleWorld (answers : Nat → String → Option Response × Option GoError) : World :=
  { httpGet := answers
    jsonUnmarshal := sampleUnmarshal
    osCreate := fun _ => none
    fileWrite := fun _ => none
    requests := []
    houseChannel := []
    created := []
    files := []
    logged := []
    stdout := []
    slept := [] }

/-- A response with status 200 and the given body. -/
def okResponse (body : String) : Option Response × Option GoError :=
  (some { StatusCode := 200, Status := "200 OK", Body := .ok body }, none)

/-- A failed `Client.Get`: nil response, non-nil error. -/
def refused : Option Response × Option GoError :=
  (none, some "dial tcp: connection refused")

/-- The client fails twice, then serves an empty page. -/
def worldTwoFailures : World :=
  sampleWorld (fun n _ => if n < 2 then refused else okResponse (pageBody []))

/-- The client fails on every request. -/
def worldAlwaysRefused : World := sampleWorld (fun _ _ => refused)

/-- The client serves a page of nine records. -/
def worldNineRecords : World := sampleWorld (fun _ _ => okResponse (pageBody (streetHouses 9)))

/-- The client returns a response whose body cannot be read to its end. -/
def worldBodyReadFails : World :=
  sampleWorld (fun _ _ =>
    (some { StatusCode := 200, Status := "200 OK", Body := .error "unexpected EOF" }, none))

/-- The response has status code 503 and an empty status text, and its body cannot be read. -/
def worldUnavailableUnread : World :=
  sampleWorld (fun _ _ =>
    (some { StatusCode := 503, Status := "", Body := .error "unexpected EOF" }, none))

/-- The output directory is missing: no file can be created. -/
def worldNoOutputFolder : World :=
  { sampleWorld (fun _ _ => okResponse "JFIF") with
    osCreate := fun path => some ("open " ++ path ++ ": no such file or directory") }

/-- The disk is full: no file can be written. -/
def worldDiskFull : World :=
  { sampleWorld (fun _ _ => okResponse "JFIF") with
    fileWrite := fun path => some ("write " ++ path ++ ": no space left on device") }

/-- The client serves ten records on page 1 and one record on every other page. -/
def worldTwoPages : World :=
  sampleWorld (fun _ url =>
    if url = buildUrl 1 pageSize then okResponse (pageBody (streetHouses 10))
    else okResponse (pageBody [sampleHouse]))

/-- The client fails once, then serves a page of one record. -/
def worldOneFailure : World :=
  sampleWorld (fun n _ => if n < 1 then refused else okResponse (pageBody [sampleHouse]))

/-- The client serves a page of one record, then the bytes of an image. -/
def worldInline : World :=
  sampleWorld (fun n _ => if n = 0 then okResponse (pageBody [sampleHouse]) else okResponse "JFIF")

/-- The client fails once, then serves a page of one record, then the bytes of an image. -/
def worldInlineOneFailure : World :=
  sampleWorld (fun n _ =>
    if n = 0 then refused
    else if n = 1 then okResponse (pageBody [sampleHouse])
    else okResponse "JFIF")

/-- The client answers status 200 with the payload of `test/data/notOkSample1.json`. -/
def worldNotOk : World := sampleWorld (fun _ _ => okResponse notOkBody)

/-- The response of `TestGetPageErrorHandling`: status code 503, empty status text. -/
def worldUnavailable : World :=
  sampleWorld (fun _ _ => (some { StatusCode := 503, Status := "", Body := .ok notOkBody }, none))

/-! ## Auxiliary facts: effects of the program's steps -/

/-- In concurrent mode the loop over the records sends each of them on the channel, in order. -/
theorem rangeHouses_concurrent (hs : List House) (w : World) :
    rangeHouses true hs w = (.returned (), { w with houseChannel := w.houseChannel ++ hs }) := by
  induction hs generalizing w with
  | nil => simp [rangeHouses]
  | cons h hs ih => simp [rangeHouses, ih, downloadAsync]

theorem osCreate_world (p : String) (w : World) :
    (osCreate p w).2 = { w with created := w.created ++ [p] } := by
  unfold osCreate
  rcases hw : w.osCreate p with _ | e <;> simp [hw]

theorem ioCopy_effects (f : Option String) (b : Except GoError String) (w : World) :
    (ioCopy f b w).2.created = w.created ∧ (ioCopy f b w).2.stdout = w.stdout ∧
    (ioCopy f b w).2.houseChannel = w.houseChannel ∧
    (ioCopy f b w).2.logged = w.logged := by
  unfold ioCopy
  cases f with
  | none => simp
  | some p =>
    cases b with
    | error e => simp
    | ok bytes => rcases hw : w.fileWrite p with _ | e <;> simp [hw]

/-- Function `download` creates exactly one file, for `buildPath h`, whatever happens next. -/
theorem download_effects (h : House) (w : World) :
    (download h w).2.created = w.created ++ [buildPath h] ∧
    (download h w).2.stdout = w.stdout ∧
    (download h w).2.houseChannel = w.houseChannel := by
  have hc := osCreate_world (buildPath h) w
  unfold download
  rcases hcr : osCreate (buildPath h) w with ⟨⟨file, err⟩, w1⟩
  rw [hcr] at hc
  simp only at hc
  subst hc
  simp only [clientGet]
  rcases hg : w.httpGet w.requests.length h.PhotoURL with ⟨res, err1⟩
  cases err <;> cases err1 <;> cases res <;> simp [hg, logPrintln] <;>
    (split <;> simp [ioCopy_effects, logPrintln])



/-- The four ways a call of `getPage` ends: a non-nil error after the request and one log line;
a nil error after a body-read failure; a panic on a nil response with a nil error; or the
success path, whose result is that of the loop over the decoded records. -/
theorem getPageWith_cases (c : Bool) (P page : Int) (w : World) :
    (∃ e msg, getPageWith c P page w
        = (.returned (false, some e), logPrintln msg (clientGet (buildUrl page P) w).2)) ∨
    (∃ r e, w.httpGet w.requests.length (buildUrl page P) = (some r, none) ∧ r.Body = .error e ∧
      getPageWith c P page w
        = (.returned (false, none), logPrintln e (clientGet (buildUrl page P) w).2)) ∨
    (getPageWith c P page w = (.panicked nilDereference, (clientGet (buildUrl page P) w).2)) ∨
    (∃ r body data, w.httpGet w.requests.length (buildUrl page P) = (some r, none) ∧
      r.Body = .ok body ∧ r.StatusCode = StatusOK ∧ w.jsonUnmarshal body = (data, none) ∧
      data.Ok = true ∧
      ((∃ w2, rangeHouses c data.Houses (clientGet (buildUrl page P) w).2 = (.returned (), w2) ∧
          getPageWith c P page w
            = (.returned (decide ((data.Houses.length : Int) < P) || decide (data.Houses.length = 0),
                none), w2)) ∨
       (∃ msg w2, rangeHouses c data.Houses (clientGet (buildUrl page P) w).2 = (.panicked msg, w2) ∧
          getPageWith c P page w = (.panicked msg, w2)))) := by
  rcases hg : w.httpGet w.requests.length (buildUrl page P) with ⟨resp, getErr⟩
  cases getErr with
  | some e =>
    left
    exact ⟨e, e, by simp [getPageWith, clientGet, hg]⟩
  | none =>
    cases resp with
    | none =>
      right; right; left
      simp [getPageWith, clientGet, hg]
    | some r =>
      rcases hb : r.Body with readErr | body
      · right; left
        exact ⟨r, readErr, rfl, hb, by simp [getPageWith, clientGet, hg, hb]⟩
      · by_cases hs : r.StatusCode = StatusOK
        · rcases hu : w.jsonUnmarshal body with ⟨data, jsonErr⟩
          cases jsonErr with
          | some je =>
            left
            exact ⟨"API returned inconsistent json in page = " ++ Itoa page, je,
              by simp [getPageWith, clientGet, hg, hb, hs, unmarshal, hu]⟩
          | none =>
            by_cases hok : data.Ok = true
            · right; right; right
              refine ⟨r, body, data, rfl, hb, hs, hu, hok, ?_⟩
              rcases hr : rangeHouses c data.Houses (clientGet (buildUrl page P) w).2 with ⟨o, w2⟩
              cases o with
              | returned u =>
                left
                refine ⟨w2, rfl, ?_⟩
                simp only [clientGet] at hr
                simp [getPageWith, clientGet, hg, hb, hs, unmarshal, hu, hok, hr]
              | panicked msg =>
                right
                refine ⟨msg, w2, rfl, ?_⟩
                simp only [clientGet] at hr
                simp [getPageWith, clientGet, hg, hb, hs, unmarshal, hu, hok, hr]
            · left
              exact ⟨"API returned not ok response in page = " ++ Itoa page,
                "API returned not ok response in page = " ++ Itoa page,
                by simp [getPageWith, clientGet, hg, hb, hs, unmarshal, hu, hok]⟩
        · left
          exact ⟨"API returned unexpected response status = " ++ r.Status ++ " in page = "
              ++ Itoa page,
            "API returned unexpected response status = " ++ r.Status ++ " in page = " ++ Itoa page,
            by simp [getPageWith, clientGet, hg, hb, hs]⟩



/-- A failed call of `getPage` made its request and logged one message, nothing else. -/
theorem getPageWith_failed_world (c : Bool) (P page : Int) (w : World)
    (h : failed (getPageWith c P page w).1 = true) :
    ∃ msg, (getPageWith c P page w).2 = logPrintln msg (clientGet (buildUrl page P) w).2 := by
  rcases getPageWith_cases c P page w with ⟨e, msg, hq⟩ | ⟨r, e, _, _, hq⟩ | hq |
    ⟨r, body, data, _, _, _, _, _, ⟨w2, _, hq⟩ | ⟨msg, w2, _, hq⟩⟩
  · exact ⟨msg, by rw [hq]⟩
  · rw [hq] at h; simp [failed] at h
  · rw [hq] at h; simp [failed] at h
  · rw [hq] at h; simp [failed] at h
  · rw [hq] at h; simp [failed] at h

theorem failed_eq_true_iff (o : Outcome (Bool × Option GoError)) :
    failed o = true ↔ ∃ b e, o = .returned (b, some e) := by
  constructor
  · intro h
    match o, h with
    | .returned (b, some e), _ => exact ⟨b, e, rfl⟩
  · rintro ⟨b, e, rfl⟩
    rfl

/-- The retry loop after `k` failed attempts and a successful one, `k` below the number of
iterations left: it returns the success, in the world the successful call leaves. -/
theorem loop_succeeds (c : Bool) (P page : Int) :
    ∀ (k remaining : Nat) (attempt : Int) (err : Option GoError) (w : World) (b : Bool),
      k < remaining →
      (∀ i, i < k → failed (getPageWith c P page (attemptWorld c P page attempt w i)).1 = true) →
      (getPageWith c P page (attemptWorld c P page attempt w k)).1 = .returned (b, none) →
      getPageRetryableLoop c P page remaining attempt err w
        = (.returned (b, none), (getPageWith c P page (attemptWorld c P page attempt w k)).2) := by
  intro k
  induction k with
  | zero =>
    intro remaining attempt err w b hk _ hlast
    obtain ⟨r, rfl⟩ : ∃ r, remaining = r + 1 := ⟨remaining - 1, by omega⟩
    simp only [attemptWorld] at hlast ⊢
    rcases hq : getPageWith c P page w with ⟨o, w1⟩
    rw [hq] at hlast
    simp only at hlast
    subst hlast
    simp [getPageRetryableLoop, hq]
  | succ k ih =>
    intro remaining attempt err w b hk hfail hlast
    obtain ⟨r, rfl⟩ : ∃ r, remaining = r + 1 := ⟨remaining - 1, by omega⟩
    have h0 := hfail 0 (by omega)
    simp only [attemptWorld] at h0
    obtain ⟨b0, e0, h0⟩ := (failed_eq_true_iff _).1 h0
    rcases hq : getPageWith c P page w with ⟨o, w1⟩
    rw [hq] at h0
    simp only at h0
    subst h0
    have hstep : getPageRetryableLoop c P page (r + 1) attempt err w
        = getPageRetryableLoop c P page r (attempt + 1) (some e0)
            (timeSleep ((attempt - 1) * retryDelay) w1) := by
      simp [getPageRetryableLoop, hq]
    rw [hstep]
    have hw : ∀ i, attemptWorld c P page attempt w (i + 1)
        = attemptWorld c P page (attempt + 1) (timeSleep ((attempt - 1) * retryDelay) w1) i := by
      intro i
      simp [attemptWorld, hq]
    rw [hw] at hlast ⊢
    apply ih r (attempt + 1) (some e0) _ b (by omega) _ hlast
    intro i hi
    rw [← hw]
    exact hfail (i + 1) (by omega)

/-- The retry loop when each of its `r + 1` iterations fails: it returns `false` with the error
of the last one, after logging that the retries are exhausted. -/
theorem loop_exhausted (c : Bool) (P page : Int) :
    ∀ (r : Nat) (attempt : Int) (err : Option GoError) (w : World) (b : Bool) (e : GoError),
      (∀ i, i < r → failed (getPageWith c P page (attemptWorld c P page attempt w i)).1 = true) →
      (getPageWith c P page (attemptWorld c P page attempt w r)).1 = .returned (b, some e) →
      getPageRetryableLoop c P page (r + 1) attempt err w
        = (.returned (false, some e),
            logPrintln ("failing after all retries, consider increasing number of retries, "
              ++ "current value = " ++ Itoa retries)
              (attemptWorld c P page attempt w (r + 1))) := by
  intro r
  induction r with
  | zero =>
    intro attempt err w b e _ hlast
    simp only [attemptWorld] at hlast ⊢
    rcases hq : getPageWith c P page w with ⟨o, w1⟩
    rw [hq] at hlast
    simp only at hlast
    subst hlast
    simp [getPageRetryableLoop, hq]
  | succ r ih =>
    intro attempt err w b e hfail hlast
    have h0 := hfail 0 (by omega)
    simp only [attemptWorld] at h0
    obtain ⟨b0, e0, h0⟩ := (failed_eq_true_iff _).1 h0
    rcases hq : getPageWith c P page w with ⟨o, w1⟩
    rw [hq] at h0
    simp only at h0
    subst h0
    have hstep : getPageRetryableLoop c P page (r + 1 + 1) attempt err w
        = getPageRetryableLoop c P page (r + 1) (attempt + 1) (some e0)
            (timeSleep ((attempt - 1) * retryDelay) w1) := by
      simp [getPageRetryableLoop, hq]
    rw [hstep]
    have hw : ∀ i, attemptWorld c P page attempt w (i + 1)
        = attemptWorld c P page (attempt + 1) (timeSleep ((attempt - 1) * retryDelay) w1) i := by
      intro i
      simp [attemptWorld, hq]
    rw [hw] at hlast ⊢
    apply ih (attempt + 1) (some e0) _ b e _ hlast
    intro i hi
    rw [← hw]
    exact hfail (i + 1) (by omega)



/-- After `k` failed attempts: `k` more requests, all for the page, and nothing forwarded. -/
theorem attemptWorld_traces (c : Bool) (P page : Int) :
    ∀ (k : Nat) (attempt : Int) (w : World),
      (∀ i, i < k → failed (getPageWith c P page (attemptWorld c P page attempt w i)).1 = true) →
      (attemptWorld c P page attempt w k).requests
          = w.requests ++ List.replicate k (buildUrl page P) ∧
        (attemptWorld c P page attempt w k).houseChannel = w.houseChannel ∧
        (attemptWorld c P page attempt w k).created = w.created := by
  intro k
  induction k with
  | zero => intro attempt w _; simp [attemptWorld]
  | succ k ih =>
    intro attempt w hfail
    have h0 := hfail 0 (by omega)
    simp only [attemptWorld] at h0
    obtain ⟨msg, hw1⟩ := getPageWith_failed_world c P page w h0
    have hih := ih (attempt + 1)
      (timeSleep ((attempt - 1) * retryDelay) (getPageWith c P page w).2)
      (fun i hi => hfail (i + 1) (by omega))
    simp only [attemptWorld]
    rw [hih.1, hih.2.1, hih.2.2, hw1]
    simp [timeSleep, logPrintln, clientGet, List.replicate_succ]

theorem rangeHouses_inline : ∀ (hs : List House) (w w2 : World),
    rangeHouses false hs w = (.returned (), w2) →
      w2.created = w.created ++ hs.map buildPath := by
  intro hs
  induction hs with
  | nil => intro w w2 h; simp [rangeHouses] at h; simp [← h]
  | cons h hs ih =>
    intro w w2 hr
    rcases hd : download h w with ⟨o, w1⟩
    cases o with
    | panicked msg => simp [rangeHouses, hd] at hr
    | returned u =>
      simp only [rangeHouses, hd] at hr
      have h1 := ih w1 w2 (by simpa using hr)
      have h2 := (download_effects h w).1
      rw [hd] at h2
      simp only at h2
      rw [h1, h2]
      simp

theorem rangeHouses_stdout : ∀ (c : Bool) (hs : List House) (w : World),
    (rangeHouses c hs w).2.stdout = w.stdout := by
  intro c hs
  induction hs with
  | nil => intro w; simp [rangeHouses]
  | cons h hs ih =>
    intro w
    cases c with
    | true => simp [rangeHouses, ih, downloadAsync]
    | false =>
      rcases hd : download h w with ⟨o, w1⟩
      have h2 := (download_effects h w).2.1
      rw [hd] at h2
      simp only at h2
      cases o with
      | panicked msg => simp [rangeHouses, hd, h2]
      | returned u => simp [rangeHouses, hd, ih, h2]

theorem getPageWith_stdout (c : Bool) (P page : Int) (w : World) :
    (getPageWith c P page w).2.stdout = w.stdout := by
  rcases getPageWith_cases c P page w with ⟨e, msg, hq⟩ | ⟨r, e, _, _, hq⟩ | hq |
    ⟨r, body, data, _, _, _, _, _, ⟨w2, hr, hq⟩ | ⟨msg, w2, hr, hq⟩⟩
  · rw [hq]; simp [logPrintln, clientGet]
  · rw [hq]; simp [logPrintln, clientGet]
  · rw [hq]; simp [clientGet]
  · rw [hq]
    have := rangeHouses_stdout c data.Houses (clientGet (buildUrl page P) w).2
    rw [hr] at this
    simpa [clientGet] using this
  · rw [hq]
    have := rangeHouses_stdout c data.Houses (clientGet (buildUrl page P) w).2
    rw [hr] at this
    simpa [clientGet] using this

theorem getPageRetryableLoop_stdout (c : Bool) (P page : Int) :
    ∀ (remaining : Nat) (attempt : Int) (err : Option GoError) (w : World),
      (getPageRetryableLoop c P page remaining attempt err w).2.stdout = w.stdout := by
  intro remaining
  induction remaining with
  | zero => intro attempt err w; simp [getPageRetryableLoop, logPrintln]
  | succ r ih =>
    intro attempt err w
    have hs := getPageWith_stdout c P page w
    rcases hq : getPageWith c P page w with ⟨o, w1⟩
    rw [hq] at hs
    simp only at hs
    match o with
    | .panicked msg => simp [getPageRetryableLoop, hq, hs]
    | .returned (b, none) => simp [getPageRetryableLoop, hq, hs]
    | .returned (b, some e) => simp [getPageRetryableLoop, hq, ih, timeSleep, hs]

theorem getPageWith_concurrent_requests (P page : Int) (w : World) :
    (getPageWith true P page w).2.requests = w.requests ++ [buildUrl page P] := by
  rcases getPageWith_cases true P page w with ⟨e, msg, hq⟩ | ⟨r, e, _, _, hq⟩ | hq |
    ⟨r, body, data, _, _, _, _, _, ⟨w2, hr, hq⟩ | ⟨msg, w2, hr, hq⟩⟩
  · rw [hq]; simp [logPrintln, clientGet]
  · rw [hq]; simp [logPrintln, clientGet]
  · rw [hq]; simp [clientGet]
  · rw [hq]
    rw [rangeHouses_concurrent] at hr
    simp only [Prod.mk.injEq, true_and] at hr
    simp [← hr, clientGet]
  · rw [rangeHouses_concurrent] at hr
    simp at hr

theorem getPageRetryableLoop_concurrent_requests (P page : Int) :
    ∀ (remaining : Nat) (attempt : Int) (err : Option GoError) (w : World) (u : String),
      u ∈ (getPageRetryableLoop true P page remaining attempt err w).2.requests →
      u ∈ w.requests ∨ u = buildUrl page P := by
  intro remaining
  induction remaining with
  | zero => intro attempt err w u; simp [getPageRetryableLoop, logPrintln]; exact Or.inl
  | succ r ih =>
    intro attempt err w u hu
    have hs := getPageWith_concurrent_requests P page w
    rcases hq : getPageWith true P page w with ⟨o, w1⟩
    rw [hq] at hs
    simp only at hs
    match o, hq with
    | .panicked msg, hq =>
      simp [getPageRetryableLoop, hq, hs] at hu
      exact hu
    | .returned (b, none), hq =>
      simp [getPageRetryableLoop, hq, hs] at hu
      exact hu
    | .returned (b, some e), hq =>
      simp only [getPageRetryableLoop, hq] at hu
      rcases ih _ _ _ u hu with h | h
      · simp [timeSleep, hs] at h
        exact h
      · exact Or.inr h



theorem getPageRetryable_stdout (page : Int) (w : World) :
    (getPageRetryable page w).2.stdout = w.stdout :=
  getPageRetryableLoop_stdout _ _ _ _ _ _ _

theorem getPageRetryable_requests (page : Int) (w : World) (u : String)
    (hu : u ∈ (getPageRetryable page w).2.requests) :
    u ∈ w.requests ∨ u = buildUrl page pageSize :=
  getPageRetryableLoop_concurrent_requests _ _ _ _ _ _ u hu

theorem pageWorld_succ (page : Int) (w : World) (i : Nat) :
    pageWorld page w (i + 1)
      = pageWorld (page + 1)
          (getPageRetryable page (fmtPrintln ("Processing page  " ++ Itoa page) w)).2 i := by
  simp [pageWorld]

theorem pageWorld_zero (page : Int) (w : World) :
    pageWorld page w 0 = fmtPrintln ("Processing page  " ++ Itoa page) w := by
  simp [pageWorld]

/-- The loop of `main` over `m` pages that are not last pages and one page that stops it. -/
theorem mainLoop_run :
    ∀ (m fuel : Nat) (page : Int) (w : World) (isLast : Bool),
      m < fuel →
      (∀ i : Nat, i < m →
        (getPageRetryable (page + i) (pageWorld page w i)).1 = .returned (false, none)) →
      page + m ≤ totalPages →
      (getPageRetryable (page + m) (pageWorld page w m)).1 = .returned (isLast, none) →
      (isLast = true ∨ page + m = totalPages) →
      mainLoop fuel page w = some (.done, (getPageRetryable (page + m) (pageWorld page w m)).2) := by
  intro m
  induction m with
  | zero =>
    intro fuel page w isLast hf _ _ hlast hstop
    obtain ⟨f, rfl⟩ : ∃ f, fuel = f + 1 := ⟨fuel - 1, by omega⟩
    simp only [Nat.cast_zero, add_zero, pageWorld_zero] at hlast hstop ⊢
    rcases hq : getPageRetryable page (fmtPrintln ("Processing page  " ++ Itoa page) w)
      with ⟨o, w2⟩
    rw [hq] at hlast
    simp only at hlast
    subst hlast
    rcases hstop with h | h
    · simp [mainLoop, hq, h]
    · cases isLast with
      | true => simp [mainLoop, hq]
      | false =>
        simp only [mainLoop, hq]
        simp [h]
  | succ m ih =>
    intro fuel page w isLast hf hbefore hle hlast hstop
    obtain ⟨f, rfl⟩ : ∃ f, fuel = f + 1 := ⟨fuel - 1, by omega⟩
    have h0 := hbefore 0 (by omega)
    simp only [Nat.cast_zero, add_zero, pageWorld_zero] at h0
    rcases hq : getPageRetryable page (fmtPrintln ("Processing page  " ++ Itoa page) w)
      with ⟨o, w2⟩
    have hcast : page + ((m + 1 : Nat) : Int) = page + 1 + (m : Int) := by
      push_cast; ring
    have hw2 : ∀ i, pageWorld page w (i + 1) = pageWorld (page + 1) w2 i := by
      intro i
      rw [pageWorld_succ, hq]
    rw [hq] at h0
    simp only at h0
    subst h0
    have hnot : ¬ page + 1 > totalPages := by
      have : (0 : Int) ≤ (m : Int) := Int.ofNat_nonneg m
      rw [hcast] at hle
      omega
    have hstep : mainLoop (f + 1) page w = mainLoop f (page + 1) w2 := by
      simp only [mainLoop, hq]
      simp [hnot]
    rw [hstep, hcast, hw2]
    rw [hcast, hw2] at hlast
    rw [hcast] at hle hstop
    apply ih f (page + 1) w2 isLast (by omega) _ hle hlast hstop
    intro i hi
    have := hbefore (i + 1) (by omega)
    rw [hw2] at this
    have hc2 : page + ((i + 1 : Nat) : Int) = page + 1 + (i : Int) := by
      push_cast; ring
    rw [hc2] at this
    exact this

theorem pageWorld_stdout : ∀ (m : Nat) (page : Int) (w : World),
    (pageWorld page w m).stdout
      = w.stdout ++ (List.range (m + 1)).map
          (fun (i : Nat) => "Processing page  " ++ Itoa (page + (i : Int))) := by
  intro m
  induction m with
  | zero => intro page w; simp [pageWorld, fmtPrintln, List.range_succ]
  | succ m ih =>
    intro page w
    rw [pageWorld_succ, ih, getPageRetryable_stdout]
    rw [List.range_succ_eq_map (m + 1)]
    simp only [fmtPrintln, List.map_cons, List.map_map, List.append_assoc, List.singleton_append,
      Nat.cast_zero, add_zero]
    congr 2
    apply List.map_congr_left
    intro a _
    simp only [Function.comp_apply, Nat.succ_eq_add_one, Nat.cast_add, Nat.cast_one]
    congr 2
    ring

theorem pageWorld_requests : ∀ (m : Nat) (page : Int) (w : World) (u : String),
    u ∈ (pageWorld page w m).requests →
      u ∈ w.requests ∨ ∃ i : Nat, i < m ∧ u = buildUrl (page + i) pageSize := by
  intro m
  induction m with
  | zero => intro page w u hu; simp [pageWorld, fmtPrintln] at hu; exact Or.inl hu
  | succ m ih =>
    intro page w u hu
    rw [pageWorld_succ] at hu
    rcases ih _ _ u hu with h | ⟨i, hi, h⟩
    · rcases getPageRetryable_requests _ _ u h with h1 | h1
      · left; simpa [fmtPrintln] using h1
      · right; exact ⟨0, by omega, by simpa using h1⟩
    · right
      refine ⟨i + 1, by omega, ?_⟩
      rw [h]
      congr 1
      push_cast; ring

/-! ## Auxiliary facts: decimal text, extensions, cleaned paths -/

theorem digitChar_isDigit : ∀ m : Nat, m < 10 → (Nat.digitChar m).isDigit = true := by
  decide

theorem toDigitsCore_isDigit : ∀ (fuel n : Nat) (ds : List Char),
    (∀ c ∈ ds, c.isDigit = true) → ∀ c ∈ Nat.toDigitsCore 10 fuel n ds, c.isDigit = true := by
  intro fuel
  induction fuel with
  | zero => intro n ds h c hc; simpa [Nat.toDigitsCore] using h c (by simpa [Nat.toDigitsCore] using hc)
  | succ f ih =>
    intro n ds h c hc
    have hd : (Nat.digitChar (n % 10)).isDigit = true := digitChar_isDigit _ (Nat.mod_lt _ (by omega))
    have hds : ∀ c ∈ Nat.digitChar (n % 10) :: ds, c.isDigit = true := by
      intro c hc
      rcases List.mem_cons.1 hc with h1 | h1
      · rw [h1]; exact hd
      · exact h c h1
    unfold Nat.toDigitsCore at hc
    simp only at hc
    split at hc
    · exact hds c hc
    · exact ih _ _ hds c hc

theorem toDigitsCore_ne_nil : ∀ (fuel n : Nat) (ds : List Char),
    Nat.toDigitsCore 10 (fuel + 1) n ds ≠ [] := by
  intro fuel
  induction fuel with
  | zero =>
    intro n ds
    unfold Nat.toDigitsCore
    simp only
    split
    · simp
    · simp [Nat.toDigitsCore]
  | succ f ih =>
    intro n ds
    unfold Nat.toDigitsCore
    simp only
    split
    · simp
    · exact ih _ _

/-- The decimal text of an integer is made of digits and the minus sign. -/
theorem Itoa_chars (n : Int) : ∀ c ∈ (Itoa n).data, c = '-' ∨ c.isDigit = true := by
  intro c hc
  cases n with
  | ofNat m =>
    right
    have : (Itoa (Int.ofNat m)).data = Nat.toDigits 10 m := rfl
    rw [this] at hc
    exact toDigitsCore_isDigit _ _ [] (by simp) c hc
  | negSucc m =>
    have : (Itoa (Int.negSucc m)).data = '-' :: Nat.toDigits 10 (m + 1) := rfl
    rw [this] at hc
    rcases List.mem_cons.1 hc with h | h
    · exact Or.inl h
    · exact Or.inr (toDigitsCore_isDigit _ _ [] (by simp) c h)

theorem Itoa_ne_nil (n : Int) : (Itoa n).data ≠ [] := by
  cases n with
  | ofNat m =>
    have : (Itoa (Int.ofNat m)).data = Nat.toDigits 10 m := rfl
    rw [this]
    exact toDigitsCore_ne_nil _ _ _
  | negSucc m =>
    have : (Itoa (Int.negSucc m)).data = '-' :: Nat.toDigits 10 (m + 1) := rfl
    rw [this]
    simp

/-- An extension holds no separator. -/
theorem extScan_no_separator : ∀ (l acc : List Char),
    '/' ∉ acc → '/' ∉ extScan l acc := by
  intro l
  induction l with
  | nil => intro acc _; simp [extScan]
  | cons c l ih =>
    intro acc h
    unfold extScan
    split
    · simp
    · rename_i hsep
      split
      · rename_i hdot
        subst hdot
        simp [h]
      · apply ih
        simp only [List.mem_cons, not_or]
        refine ⟨?_, h⟩
        intro hc
        apply hsep
        simp [isPathSeparator, ← hc]

theorem extScan_spec : ∀ (l acc : List Char), '.' ∉ acc →
    extScan l acc = [] ∨
      ∃ l1 l2, l = l1 ++ '.' :: l2 ∧ extScan l acc = '.' :: (l1.reverse ++ acc) ∧
        '.' ∉ l1.reverse ++ acc := by
  intro l
  induction l with
  | nil => intro acc _; left; simp [extScan]
  | cons c l ih =>
    intro acc hacc
    unfold extScan
    split
    · left; rfl
    · split
      · rename_i hdot
        subst hdot
        right
        exact ⟨[], l, by simp, by simp, by simpa using hacc⟩
      · rename_i hdot
        have hacc2 : '.' ∉ c :: acc := by
          simp only [List.mem_cons, not_or]
          exact ⟨fun h => hdot h.symm, hacc⟩
        rcases ih (c :: acc) hacc2 with h | ⟨l1, l2, h1, h2, h3⟩
        · left; exact h
        · right
          refine ⟨c :: l1, l2, by simp [h1], ?_, ?_⟩
          · rw [h2]; simp
          · simpa using h3

/-- Function `filepath.Ext` returns a suffix of the path that is empty or starts at a dot and
holds no other dot. -/
theorem Ext_suffix (path : String) :
    (Ext path).data <:+ path.data ∧
      (Ext path = "" ∨ ∃ rest, (Ext path).data = '.' :: rest ∧ '.' ∉ rest) := by
  rcases extScan_spec path.data.reverse [] (by simp) with h | ⟨l1, l2, h1, h2, h3⟩
  · have : Ext path = "" := by
      apply String.ext
      simp [Ext, h]
    rw [this]
    exact ⟨by simp, Or.inl rfl⟩
  · have hd : (Ext path).data = '.' :: l1.reverse := by simp [Ext, h2]
    constructor
    · rw [hd]
      have hp : path.data = l2.reverse ++ '.' :: l1.reverse := by
        have := congrArg List.reverse h1
        simpa using this
      rw [hp]
      exact List.suffix_append _ _
    · right
      exact ⟨l1.reverse, hd, by simpa using h3⟩

theorem cleanScan_copying : ∀ (name out : List Char) (dotdot : Nat),
    '/' ∉ name → cleanScan false name .copying out dotdot = out ++ name := by
  intro name
  induction name with
  | nil => intro out dotdot _; simp [cleanScan]
  | cons c cs ih =>
    intro out dotdot h
    simp only [List.mem_cons, not_or] at h
    have hc : isPathSeparator c = false := by
      simp [isPathSeparator]
      exact fun hh => h.1 hh.symm
    simp [cleanScan, hc, ih _ _ h.2]

theorem not_digit_of_special (c : Char) (h : c = '-' ∨ c.isDigit = true) :
    c ≠ '/' ∧ c ≠ '.' := by
  rcases h with h | h
  · subst h; decide
  · constructor <;> (intro hc; subst hc; revert h; decide)

/-- Function `filepath.Clean` leaves `output/name` as it is when `name` holds no separator and
does not start with a dot. -/
theorem Clean_output_child (name : List Char) (c : Char) (cs : List Char)
    (hname : name = c :: cs) (h1 : c ≠ '/') (h2 : c ≠ '.') (h3 : '/' ∉ cs) :
    Clean (String.mk ("output/".data ++ name)) = String.mk ("output/".data ++ name) := by
  subst hname
  have hc : isPathSeparator c = false := by simp [isPathSeparator, h1]
  have hcopy := cleanScan_copying cs ("output/".data ++ [c]) 0 h3
  simp only [Clean]
  simp only [String.data_append, List.append_assoc] at hcopy
  simp [cleanScan, isPathSeparator, atElemEnd, h1, h2]
  simp at hcopy
  simp [hcopy]

theorem intercalate_pair (a b : String) : "/".intercalate [a, b] = a ++ "/" ++ b := rfl


/-! ## Auxiliary facts: records forwarded by `getPage` -/

/-- A call of `getPage` that returns a nil error forwarded exactly the parsed records. -/
theorem getPageWith_forwarded (c : Bool) (P page : Int) (w : World) (b : Bool)
    (h : (getPageWith c P page w).1 = .returned (b, none)) :
    (c = true → (getPageWith c P page w).2.houseChannel
        = w.houseChannel ++ parsedRecords P page w) ∧
      (c = false → (getPageWith c P page w).2.created
        = w.created ++ (parsedRecords P page w).map buildPath) := by
  rcases getPageWith_cases c P page w with ⟨e, msg, hq⟩ | ⟨r, e, hg, hb, hq⟩ | hq |
    ⟨r, body, data, hg, hb, _, hu, _, ⟨w2, hr, hq⟩ | ⟨msg, w2, _, hq⟩⟩
  · rw [hq] at h; simp at h
  · rw [hq]
    simp [parsedRecords, hg, hb, logPrintln, clientGet]
  · rw [hq] at h; simp at h
  · rw [hq]
    have hp : parsedRecords P page w = data.Houses := by
      simp [parsedRecords, hg, hb, hu]
    rw [hp]
    constructor
    · intro hc
      subst hc
      rw [rangeHouses_concurrent] at hr
      simp only [Prod.mk.injEq, true_and] at hr
      simp [← hr, clientGet]
    · intro hc
      subst hc
      have := rangeHouses_inline _ _ _ hr
      simpa [clientGet] using this
  · rw [hq] at h; simp at h

theorem getPageWith_failed_forwards_nothing (c : Bool) (P page : Int) (w : World) (b : Bool)
    (e : GoError) (h : (getPageWith c P page w).1 = .returned (b, some e)) :
    (getPageWith c P page w).2.houseChannel = w.houseChannel ∧
      (getPageWith c P page w).2.created = w.created := by
  obtain ⟨msg, hw⟩ := getPageWith_failed_world c P page w (by rw [h]; rfl)
  rw [hw]
  simp [logPrintln, clientGet]

/-- In the other mode the loop over the records, when it returns, has called `download` on each
record, once and in order, and each of these calls returned. -/
theorem rangeHouses_inline_world : ∀ (hs : List House) (w w2 : World),
    rangeHouses false hs w = (.returned (), w2) →
      w2 = downloadedWorld hs w ∧
        ∀ (before : List House) (h : House) (later : List House), hs = before ++ h :: later →
          (download h (downloadedWorld before w)).1 = .returned () := by
  intro hs
  induction hs with
  | nil =>
    intro w w2 h
    simp [rangeHouses] at h
    refine ⟨by simp [downloadedWorld, h], ?_⟩
    intro before h1 later hsplit
    simp at hsplit
  | cons h hs ih =>
    intro w w2 hr
    rcases hd : download h w with ⟨o, w1⟩
    cases o with
    | panicked msg => simp [rangeHouses, hd] at hr
    | returned u =>
      simp only [rangeHouses, hd] at hr
      obtain ⟨h1, h2⟩ := ih w1 w2 (by simpa using hr)
      have hw1 : (download h w).2 = w1 := by rw [hd]
      refine ⟨by simp [downloadedWorld, hw1, h1], ?_⟩
      intro before h0 later hsplit
      cases before with
      | nil =>
        simp only [List.nil_append, List.cons.injEq] at hsplit
        obtain ⟨rfl, _⟩ := hsplit
        simp [downloadedWorld, hd]
      | cons b before =>
        simp only [List.cons_append, List.cons.injEq] at hsplit
        obtain ⟨rfl, hrest⟩ := hsplit
        have := h2 before h0 later hrest
        simpa [downloadedWorld, hw1] using this

/-- A call of `getPage` in the other mode that returns a nil error has called `download` on each
parsed record, once and in parsed order, and nothing else after its request. -/
theorem getPageWith_inline_world (P page : Int) (w : World) (b : Bool)
    (h : (getPageWith false P page w).1 = .returned (b, none)) :
    (getPageWith false P page w).2
        = downloadedWorld (parsedRecords P page w) (afterRequest P page w) ∧
      ∀ (before : List House) (h0 : House) (later : List House),
        parsedRecords P page w = before ++ h0 :: later →
          (download h0 (downloadedWorld before (afterRequest P page w))).1 = .returned () := by
  rcases getPageWith_cases false P page w with ⟨e, msg, hq⟩ | ⟨r, e, hg, hb, hq⟩ | hq |
    ⟨r, body, data, hg, hb, _, hu, _, ⟨w2, hr, hq⟩ | ⟨msg, w2, _, hq⟩⟩
  · rw [hq] at h; simp at h
  · have hp : parsedRecords P page w = [] := by simp [parsedRecords, hg, hb]
    have ha : afterRequest P page w = logPrintln e (clientGet (buildUrl page P) w).2 := by
      simp [afterRequest, hg, hb]
    rw [hq, hp, ha]
    refine ⟨by simp [downloadedWorld], ?_⟩
    intro before h0 later hsplit
    simp at hsplit
  · rw [hq] at h; simp at h
  · have hp : parsedRecords P page w = data.Houses := by
      simp [parsedRecords, hg, hb, hu]
    have ha : afterRequest P page w = (clientGet (buildUrl page P) w).2 := by
      simp [afterRequest, hg, hb]
    obtain ⟨h1, h2⟩ := rangeHouses_inline_world _ _ _ hr
    rw [hq, hp, ha]
    exact ⟨h1, h2⟩
  · rw [hq] at h; simp at h

/-- Failed attempts write no file. -/
theorem attemptWorld_files (c : Bool) (P page : Int) :
    ∀ (k : Nat) (attempt : Int) (w : World),
      (∀ i, i < k → failed (getPageWith c P page (attemptWorld c P page attempt w i)).1 = true) →
      (attemptWorld c P page attempt w k).files = w.files := by
  intro k
  induction k with
  | zero => intro attempt w _; simp [attemptWorld]
  | succ k ih =>
    intro attempt w hfail
    have h0 := hfail 0 (by omega)
    simp only [attemptWorld] at h0
    obtain ⟨msg, hw1⟩ := getPageWith_failed_world c P page w h0
    have hih := ih (attempt + 1)
      (timeSleep ((attempt - 1) * retryDelay) (getPageWith c P page w).2)
      (fun i hi => hfail (i + 1) (by omega))
    simp only [attemptWorld]
    rw [hih, hw1]
    simp [timeSleep, logPrintln, clientGet]

/-! ## The properties -/

/-- Claim C1.  `getPageRetryable` with `retries = 20` attempts, for any page: if the call of
`getPage` fails exactly `k` times and then succeeds, `k < retries`, the call returns that
success's `isLastPage` with a nil error, and its whole effect is that of those `k + 1` calls of
`getPage` (with the sleeps between them): `k + 1` requests were made, one by each call.  If
`getPage` fails on every attempt, `retries` requests are made, one by each call, and the call
returns `false` with the error of the final attempt. -/
theorem getPageRetryable_retry_policy (page : Int) (w : World) :
    retries = 20 ∧
    (∀ (k : Nat) (isLastPage : Bool), (k : Int) < retries →
        (∀ i, i < k → failed (getPage page (retryWorld page w i)).1 = true) →
        (getPage page (retryWorld page w k)).1 = .returned (isLastPage, none) →
        getPageRetryable page w
            = (.returned (isLastPage, none), (getPage page (retryWorld page w k)).2) ∧
          (getPageRetryable page w).2.requests
            = w.requests ++ List.replicate (k + 1) (buildUrl page pageSize)) ∧
      (∀ (b : Bool) (e : GoError),
        (∀ i, i < retries.toNat → failed (getPage page (retryWorld page w i)).1 = true) →
        (getPage page (retryWorld page w (retries.toNat - 1))).1 = .returned (b, some e) →
        (getPageRetryable page w).1 = .returned (false, some e) ∧
          (getPageRetryable page w).2.requests
            = w.requests ++ List.replicate retries.toNat (buildUrl page pageSize)) := by
  refine ⟨rfl, ?_, ?_⟩
  · intro k b hk hfail hlast
    have hk2 : k < retries.toNat := by simp [retries] at hk ⊢; omega
    have hrun := loop_succeeds enableConcurrentOptimization pageSize page k retries.toNat 1 none
      w b hk2 hfail hlast
    have htr := attemptWorld_traces enableConcurrentOptimization pageSize page k 1 w hfail
    have hreq := getPageWith_concurrent_requests pageSize page (retryWorld page w k)
    refine ⟨hrun, ?_⟩
    simp only [getPageRetryable, getPageRetryableWith]
    rw [hrun]
    simp only [getPage, retryWorld, enableConcurrentOptimization] at hreq htr ⊢
    rw [hreq, htr.1, List.replicate_succ', List.append_assoc]
  · intro b e hfail hlast
    have hr : retries.toNat = 19 + 1 := by decide
    rw [hr] at hfail
    have hrun := loop_exhausted enableConcurrentOptimization pageSize page 19 1 none w b e
      (fun i hi => hfail i (by omega)) hlast
    have htr := attemptWorld_traces enableConcurrentOptimization pageSize page (19 + 1) 1 w hfail
    simp only [getPageRetryable, getPageRetryableWith]
    rw [hr, hrun]
    constructor
    · simp only
    · simp only [logPrintln]
      exact htr.1

theorem getPageRetryable_retry_policy_witness :
    ((getPageRetryable 1 worldTwoFailures).1 = .returned (true, none) ∧
        (getPageRetryable 1 worldTwoFailures).2.requests
          = worldTwoFailures.requests ++ List.replicate (2 + 1) (buildUrl 1 pageSize)) ∧
      ((getPageRetryable 1 worldAlwaysRefused).1
          = .returned (false, some "dial tcp: connection refused") ∧
        (getPageRetryable 1 worldAlwaysRefused).2.requests
          = worldAlwaysRefused.requests ++ List.replicate retries.toNat (buildUrl 1 pageSize)) :=
  ⟨⟨congrArg Prod.fst ((getPageRetryable_retry_policy 1 worldTwoFailures).2.1 2 true (by decide)
        (by decide) (by decide)).1,
      ((getPageRetryable_retry_policy 1 worldTwoFailures).2.1 2 true (by decide)
        (by decide) (by decide)).2⟩,
    (getPageRetryable_retry_policy 1 worldAlwaysRefused).2.2 false "dial tcp: connection refused"
      (by decide) (by decide)⟩

/-- Claim C2.  For every page size `P` and every response with status 200 whose body is read
and decoded into a payload with `Ok = true` holding `R` records, `getPage` returns a nil error
and `isLastPage = (R < P || R == 0)`; with `P = 10`, a page of 9 records and a page of 0
records are last pages and a page of 10 records is not. -/
theorem getPage_last_page (P page : Int) (w : World) (r : Response) (body : String)
    (data : Data)
    (hget : w.httpGet w.requests.length (buildUrl page P) = (some r, none))
    (hbody : r.Body = .ok body)
    (hstatus : r.StatusCode = 200)
    (hparse : w.jsonUnmarshal body = (data, none))
    (hok : data.Ok = true) :
    (getPageWith enableConcurrentOptimization P page w).1
        = .returned (decide ((data.Houses.length : Int) < P) || decide (data.Houses.length = 0),
            none) ∧
      (P = 10 → data.Houses.length = 9 →
        (getPageWith enableConcurrentOptimization P page w).1 = .returned (true, none)) ∧
      (P = 10 → data.Houses.length = 0 →
        (getPageWith enableConcurrentOptimization P page w).1 = .returned (true, none)) ∧
      (P = 10 → data.Houses.length = 10 →
        (getPageWith enableConcurrentOptimization P page w).1 = .returned (false, none)) := by
  have h : (getPageWith enableConcurrentOptimization P page w).1
      = .returned (decide ((data.Houses.length : Int) < P) || decide (data.Houses.length = 0),
          none) := by
    simp [getPageWith, clientGet, hget, hbody, StatusOK, hstatus, unmarshal, hparse, hok,
      enableConcurrentOptimization, rangeHouses_concurrent]
  refine ⟨h, ?_, ?_, ?_⟩ <;>
  · intro hP hlen
    rw [h, hP, hlen]
    decide

theorem getPage_last_page_witness :
    (getPage 1 worldNineRecords).1 = .returned (true, none) :=
  (getPage_last_page 10 1 worldNineRecords
    { StatusCode := 200, Status := "200 OK", Body := .ok (pageBody (streetHouses 9)) }
    (pageBody (streetHouses 9)) { Houses := streetHouses 9, Message := "", Ok := true }
    rfl rfl rfl (by decide!) rfl).2.1 rfl (by decide)

/-- Claim C3, evaluated where the code departs from it.  When the transport call succeeds and
the body cannot be read to its end, `getPage` logs the read error and returns `false` with a
nil error (the variable `getErr`, which is nil there); `getPageRetryable` takes it for a
success and makes no second attempt. -/
theorem getPage_body_read_failure_returns_nil_error :
    (getPage 1 worldBodyReadFails).1 = .returned (false, none) ∧
      (getPage 1 worldBodyReadFails).2.logged = ["unexpected EOF"] ∧
      (getPageRetryable 1 worldBodyReadFails).1 = .returned (false, none) ∧
      (getPageRetryable 1 worldBodyReadFails).2.requests = [buildUrl 1 pageSize] := by
  decide

/-- Claim C4, evaluated where the code departs from it.  When `Client.Get` fails for the
record's photo, `download` logs the error and then reads `res.Body` through the nil response:
it panics instead of returning, and `launchWorker` never reaches the next record of its queue.
(When it is `os.Create` or the copy that fails, `download` logs the error and returns.) -/
theorem download_panics_when_asset_fetch_fails :
    (download sampleHouse worldAlwaysRefused).1 = .panicked nilDereference ∧
      (launchWorker 1 [sampleHouse, streetHouse 2] worldAlwaysRefused).1
        = .panicked nilDereference ∧
      (launchWorker 1 [sampleHouse, streetHouse 2] worldAlwaysRefused).2.created
        = [buildPath sampleHouse] ∧
      (launchWorker 1 [sampleHouse, streetHouse 2] worldAlwaysRefused).2.logged
        = ["Worker 1 started  download ID= 1", "dial tcp: connection refused"] ∧
      (download sampleHouse worldNoOutputFolder).1 = .returned () ∧
      (download sampleHouse worldDiskFull).1 = .returned () := by
  decide

/-- Claim C5.  A run of the loop of `main` in which the fetches of pages `1` to `n - 1` return
`isLastPage = false` with a nil error and the fetch of page `n` returns a nil error, where
page `n` is a last page or `n = totalPages` (and `n ≤ totalPages`): the loop ends in `done`
within `totalPages` iterations, it is exactly the sequence of the calls of `getPageRetryable`
on the pages `1, 2, ..., n` in this order (the lines it prints before the calls name these
pages, each once), and every request made is for a page between `1` and `n ≤ totalPages`. -/
theorem mainLoop_fetches_pages_in_order (w : World) (n : Nat) (isLast : Bool)
    (hn : 1 ≤ n) (hmax : (n : Int) ≤ totalPages)
    (hbefore : ∀ i : Nat, i + 1 < n →
      (getPageRetryable ((i + 1 : Nat) : Int) (pageWorld 1 w i)).1 = .returned (false, none))
    (hnth : (getPageRetryable (n : Int) (pageWorld 1 w (n - 1))).1 = .returned (isLast, none))
    (hstop : isLast = true ∨ (n : Int) = totalPages) :
    mainLoop totalPages.toNat 1 w
        = some (.done, (getPageRetryable (n : Int) (pageWorld 1 w (n - 1))).2) ∧
      (getPageRetryable (n : Int) (pageWorld 1 w (n - 1))).2.stdout
        = w.stdout ++ (List.range n).map
            (fun (i : Nat) => "Processing page  " ++ Itoa ((i + 1 : Nat) : Int)) ∧
      (∀ u ∈ (getPageRetryable (n : Int) (pageWorld 1 w (n - 1))).2.requests,
        u ∈ w.requests ∨
          ∃ p : Nat, 1 ≤ p ∧ p ≤ n ∧ (p : Int) ≤ totalPages ∧ u = buildUrl (p : Int) pageSize) := by
  obtain ⟨m, rfl⟩ : ∃ m, n = m + 1 := ⟨n - 1, by omega⟩
  have hcast : ∀ i : Nat, ((i + 1 : Nat) : Int) = 1 + (i : Int) := by
    intro i; push_cast; ring
  simp only [Nat.add_sub_cancel] at hnth ⊢
  rw [hcast] at hnth hmax hstop ⊢
  have hfuel : m < totalPages.toNat := by
    simp [totalPages] at hmax ⊢
    omega
  refine ⟨?_, ?_, ?_⟩
  · apply mainLoop_run m totalPages.toNat 1 w isLast hfuel _ hmax hnth hstop
    intro i hi
    have := hbefore i (by omega)
    rw [hcast] at this
    exact this
  · rw [getPageRetryable_stdout, pageWorld_stdout]
    congr 1
    apply List.map_congr_left
    intro a _
    rw [hcast]
  · intro u hu
    rcases getPageRetryable_requests _ _ u hu with h | h
    · rcases pageWorld_requests m 1 w u h with h1 | ⟨i, hi, h1⟩
      · exact Or.inl h1
      · right
        refine ⟨i + 1, by omega, by omega, ?_, ?_⟩
        · have : (0 : Int) ≤ (m : Int) := Int.ofNat_nonneg m
          push_cast
          omega
        · rw [h1, hcast]
    · right
      refine ⟨m + 1, by omega, by omega, ?_, ?_⟩
      · rw [hcast]; exact hmax
      · rw [h, hcast]

theorem mainLoop_fetches_pages_in_order_witness :
    mainLoop totalPages.toNat 1 worldTwoPages
        = some (.done,
            (getPageRetryable ((2 : Nat) : Int) (pageWorld 1 worldTwoPages (2 - 1))).2) ∧
      (getPageRetryable ((2 : Nat) : Int) (pageWorld 1 worldTwoPages (2 - 1))).2.stdout
        = ["Processing page  1", "Processing page  2"] ∧
      (getPageRetryable ((2 : Nat) : Int) (pageWorld 1 worldTwoPages (2 - 1))).2.requests
        = [buildUrl 1 pageSize, buildUrl 2 pageSize] :=
  ⟨(mainLoop_fetches_pages_in_order worldTwoPages 2 true (by decide) (by decide)
      (by
        intro i hi
        obtain rfl : i = 0 := by omega
        decide!)
      (by decide!) (Or.inl rfl)).1,
    by decide!, by decide!⟩

/-- Claim C6.  For every call of `getPage`, the records forwarded to the download path are
exactly the parsed records of the response, each once and in parsed order, when the call
returns a nil error, and none when it returns an error.  In concurrent mode the records sent
on `houseChannel` are the parsed records.  In the other mode the world the call leaves is the
one obtained by calling `download` on each parsed record, once and in parsed order, after the
request (each of these calls returned, and created the file of its record); when the call
returns an error its whole effect is the request and one log line, so `download` was not
called.  Hence a call of `getPageRetryable` that succeeds after `k` failed attempts forwards
exactly the parsed records of the response of its last attempt, each once, and the failed
attempts forwarded nothing: they made `k` requests for the page, created and wrote no file. -/
theorem getPage_forwards_parsed_records (P page : Int) (w : World) :
    (∀ b, (getPageWith true P page w).1 = .returned (b, none) →
        (getPageWith true P page w).2.houseChannel = w.houseChannel ++ parsedRecords P page w) ∧
      (∀ b e, (getPageWith true P page w).1 = .returned (b, some e) →
        (getPageWith true P page w).2.houseChannel = w.houseChannel) ∧
      (∀ b, (getPageWith false P page w).1 = .returned (b, none) →
        (getPageWith false P page w).2
            = downloadedWorld (parsedRecords P page w) (afterRequest P page w) ∧
          (∀ (before : List House) (h : House) (later : List House),
            parsedRecords P page w = before ++ h :: later →
              (download h (downloadedWorld before (afterRequest P page w))).1 = .returned ()) ∧
          (getPageWith false P page w).2.created
            = w.created ++ (parsedRecords P page w).map buildPath) ∧
      (∀ b e, (getPageWith false P page w).1 = .returned (b, some e) →
        (∃ msg, (getPageWith false P page w).2
            = logPrintln msg (clientGet (buildUrl page P) w).2) ∧
          (getPageWith false P page w).2.created = w.created) ∧
      (∀ (k : Nat) (b : Bool), (k : Int) < retries →
        (∀ i, i < k →
          failed (getPageWith true P page (attemptWorld true P page 1 w i)).1 = true) →
        (getPageWith true P page (attemptWorld true P page 1 w k)).1 = .returned (b, none) →
        (getPageRetryableWith true P page w).1 = .returned (b, none) ∧
        (getPageRetryableWith true P page w).2.houseChannel
          = w.houseChannel ++ parsedRecords P page (attemptWorld true P page 1 w k)) ∧
      (∀ (k : Nat) (b : Bool), (k : Int) < retries →
        (∀ i, i < k →
          failed (getPageWith false P page (attemptWorld false P page 1 w i)).1 = true) →
        (getPageWith false P page (attemptWorld false P page 1 w k)).1 = .returned (b, none) →
        (getPageRetryableWith false P page w).1 = .returned (b, none) ∧
        (getPageRetryableWith false P page w).2
          = downloadedWorld (parsedRecords P page (attemptWorld false P page 1 w k))
              (afterRequest P page (attemptWorld false P page 1 w k)) ∧
        (∀ (before : List House) (h : House) (later : List House),
          parsedRecords P page (attemptWorld false P page 1 w k) = before ++ h :: later →
            (download h (downloadedWorld before
              (afterRequest P page (attemptWorld false P page 1 w k)))).1 = .returned ()) ∧
        (attemptWorld false P page 1 w k).requests
          = w.requests ++ List.replicate k (buildUrl page P) ∧
        (attemptWorld false P page 1 w k).created = w.created ∧
        (attemptWorld false P page 1 w k).files = w.files ∧
        (getPageRetryableWith false P page w).2.created
          = w.created
            ++ (parsedRecords P page (attemptWorld false P page 1 w k)).map buildPath) := by
  refine ⟨fun b h => (getPageWith_forwarded true P page w b h).1 rfl,
    fun b e h => (getPageWith_failed_forwards_nothing true P page w b e h).1,
    fun b h => ⟨(getPageWith_inline_world P page w b h).1, (getPageWith_inline_world P page w b h).2,
      (getPageWith_forwarded false P page w b h).2 rfl⟩,
    fun b e h => ⟨getPageWith_failed_world false P page w (by rw [h]; rfl),
      (getPageWith_failed_forwards_nothing false P page w b e h).2⟩, ?_, ?_⟩
  · intro k b hk hfail hlast
    have hk2 : k < retries.toNat := by simp [retries] at hk ⊢; omega
    have hrun := loop_succeeds true P page k retries.toNat 1 none w b hk2 hfail hlast
    have htr := attemptWorld_traces true P page k 1 w hfail
    simp only [getPageRetryableWith]
    rw [hrun]
    refine ⟨rfl, ?_⟩
    rw [(getPageWith_forwarded true P page _ b hlast).1 rfl, htr.2.1]
  · intro k b hk hfail hlast
    have hk2 : k < retries.toNat := by simp [retries] at hk ⊢; omega
    have hrun := loop_succeeds false P page k retries.toNat 1 none w b hk2 hfail hlast
    have htr := attemptWorld_traces false P page k 1 w hfail
    have hfiles := attemptWorld_files false P page k 1 w hfail
    have hworld := getPageWith_inline_world P page _ b hlast
    simp only [getPageRetryableWith]
    rw [hrun]
    refine ⟨rfl, hworld.1, hworld.2, htr.1, htr.2.2, hfiles, ?_⟩
    rw [(getPageWith_forwarded false P page _ b hlast).2 rfl, htr.2.2]

theorem getPage_forwards_parsed_records_witness :
    (getPageWith true pageSize 1 worldInline).2.houseChannel = [sampleHouse] ∧
      (getPageWith true pageSize 1 worldAlwaysRefused).2.houseChannel = [] ∧
      ((getPageWith false pageSize 1 worldInline).2
          = downloadedWorld (parsedRecords pageSize 1 worldInline)
              (afterRequest pageSize 1 worldInline) ∧
        parsedRecords pageSize 1 worldInline = [sampleHouse] ∧
        (getPageWith false pageSize 1 worldInline).2.requests
          = [buildUrl 1 pageSize, sampleHouse.PhotoURL] ∧
        (getPageWith false pageSize 1 worldInline).2.files
          = [(buildPath sampleHouse, "JFIF")] ∧
        (getPageWith false pageSize 1 worldInline).2.created = [buildPath sampleHouse]) ∧
      (getPageWith false pageSize 1 worldAlwaysRefused).2.created = [] ∧
      ((getPageRetryableWith true pageSize 1 worldOneFailure).1 = .returned (true, none) ∧
        (getPageRetryableWith true pageSize 1 worldOneFailure).2.houseChannel = [sampleHouse]) ∧
      ((getPageRetryableWith false pageSize 1 worldInlineOneFailure).1 = .returned (true, none) ∧
        (getPageRetryableWith false pageSize 1 worldInlineOneFailure).2.requests
          = [buildUrl 1 pageSize, buildUrl 1 pageSize, sampleHouse.PhotoURL] ∧
        (getPageRetryableWith false pageSize 1 worldInlineOneFailure).2.files
          = [(buildPath sampleHouse, "JFIF")] ∧
        (getPageRetryableWith false pageSize 1 worldInlineOneFailure).2.created
          = [buildPath sampleHouse]) :=
  ⟨(getPage_forwards_parsed_records pageSize 1 worldInline).1 true (by decide),
    (getPage_forwards_parsed_records pageSize 1 worldAlwaysRefused).2.1 false
      "dial tcp: connection refused" (by decide),
    ⟨((getPage_forwards_parsed_records pageSize 1 worldInline).2.2.1 true (by decide)).1,
      by decide, by decide, by decide,
      ((getPage_forwards_parsed_records pageSize 1 worldInline).2.2.1 true (by decide)).2.2⟩,
    ((getPage_forwards_parsed_records pageSize 1 worldAlwaysRefused).2.2.2.1 false
      "dial tcp: connection refused" (by decide)).2,
    (getPage_forwards_parsed_records pageSize 1 worldOneFailure).2.2.2.2.1 1 true (by decide)
      (by decide) (by decide),
    ⟨((getPage_forwards_parsed_records pageSize 1 worldInlineOneFailure).2.2.2.2.2 1 true (by decide)
        (by decide) (by decide)).1,
      by decide, by decide,
      ((getPage_forwards_parsed_records pageSize 1 worldInlineOneFailure).2.2.2.2.2 1 true (by decide)
        (by decide) (by decide)).2.2.2.2.2.2⟩⟩

/-- Claim C7 fails as stated.  For the payload of `test/data/notOkSample1.json`, decoded with
message `Service Unavailable` and `Ok = false`, served with status 200 on page 1, the error
returned by `getPage` has the text `API returned not ok response in page = 1`, in which the
message does not occur. -/
theorem getPage_not_ok_error_lacks_message :
    worldNotOk.jsonUnmarshal notOkBody
        = ({ Houses := [], Message := "Service Unavailable", Ok := false }, none) ∧
      (getPage 1 worldNotOk).1
        = .returned (false, some "API returned not ok response in page = 1") ∧
      ¬ containsText "API returned not ok response in page = 1" "Service Unavailable" := by
  decide

/-- Claim C7, amended.  For every page number and every response with status 200 whose body is
read and decoded into a payload with `Ok = false`, whatever its message, `getPage` returns
`false` and the error `API returned not ok response in page = ` followed by the page number. -/
theorem getPage_not_ok_error (page : Int) (w : World) (r : Response) (body : String)
    (data : Data)
    (hget : w.httpGet w.requests.length (buildUrl page pageSize) = (some r, none))
    (hbody : r.Body = .ok body)
    (hstatus : r.StatusCode = 200)
    (hparse : w.jsonUnmarshal body = (data, none))
    (hok : data.Ok = false) :
    (getPage page w).1
      = .returned (false, some ("API returned not ok response in page = " ++ Itoa page)) := by
  simp [getPage, getPageWith, clientGet, hget, hbody, StatusOK, hstatus, unmarshal, hparse, hok]

theorem getPage_not_ok_error_witness :
    (getPage 1 worldNotOk).1
      = .returned (false, some ("API returned not ok response in page = " ++ Itoa 1)) :=
  getPage_not_ok_error 1 worldNotOk
    { StatusCode := 200, Status := "200 OK", Body := .ok notOkBody } notOkBody
    { Houses := [], Message := "Service Unavailable", Ok := false } rfl rfl rfl (by decide) rfl

/-- Claim C8 fails as stated.  For a response with status code 503 and an empty status text
whose body cannot be read to its end, on page 1, `getPage` returns before it looks at the
status: the error it returns is not the one of the claim. -/
theorem getPage_unexpected_status_unread_body :
    worldUnavailableUnread.httpGet 0 (buildUrl 1 pageSize)
        = (some { StatusCode := 503, Status := "", Body := .error "unexpected EOF" }, none) ∧
      (getPage 1 worldUnavailableUnread).1
        ≠ .returned (false, some "API returned unexpected response status =  in page = 1") :=
  ⟨rfl, by decide⟩

/-- Claim C8, amended.  For every page number `p` and every response whose body is read to its
end without error and whose status code is not 200, with status text `s` and whatever the
bytes of its body, `getPage` returns `false` and the
error `API returned unexpected response status = ` ++ `s` ++ ` in page = ` ++ decimal `p`; for
an empty status text on page 1 this is `API returned unexpected response status =  in page = 1`. -/
theorem getPage_unexpected_status (page : Int) (w : World) (r : Response) (body : String)
    (hget : w.httpGet w.requests.length (buildUrl page pageSize) = (some r, none))
    (hbody : r.Body = .ok body)
    (hstatus : r.StatusCode ≠ 200) :
    (getPage page w).1
        = .returned (false, some ("API returned unexpected response status = " ++ r.Status
            ++ " in page = " ++ Itoa page)) ∧
      (r.Status = "" → page = 1 →
        (getPage page w).1
          = .returned (false, some "API returned unexpected response status =  in page = 1")) := by
  have h : (getPage page w).1
      = .returned (false, some ("API returned unexpected response status = " ++ r.Status
          ++ " in page = " ++ Itoa page)) := by
    simp [getPage, getPageWith, clientGet, hget, hbody, StatusOK, hstatus]
  refine ⟨h, ?_⟩
  intro hs hp
  rw [h, hs, hp]
  decide

theorem getPage_unexpected_status_witness :
    (getPage 1 worldUnavailable).1
      = .returned (false, some "API returned unexpected response status =  in page = 1") :=
  (getPage_unexpected_status 1 worldUnavailable
    { StatusCode := 503, Status := "", Body := .ok notOkBody } notOkBody rfl rfl
    (by decide)).2 rfl rfl

/-- Claim C9 fails as stated.  For a record with identifier 1 whose address is `7 A//B St`,
`buildPath` returns `output/1-7 A/B St.jpg`: `filepath.Join` cleans the path, the result is
not the concatenation of the claim, and the file is not directly under the output directory. -/
theorem buildPath_slash_in_address :
    buildPath slashHouse = "output/1-7 A/B St.jpg" ∧
      buildPath slashHouse ≠ outputFolder ++ "/" ++ Itoa slashHouse.ID
        ++ fileNameComponentSeparator ++ slashHouse.Address ++ Ext slashHouse.PhotoURL := by
  decide

/-- Claim C9, amended.  For every record whose address holds no slash, `buildPath` returns
`outputFolder` ++ `/` ++ decimal `ID` ++ `-` ++ `Address` ++ `ext`, where `ext` is
`filepath.Ext` of the photo URL, and the file name after `outputFolder/` holds no slash: the
file is directly under the output directory.  The extension is a suffix of the URL, empty or
starting at a dot and holding no other dot. -/
theorem buildPath_without_slash (h : House) (hsep : '/' ∉ h.Address.data) :
    buildPath h = outputFolder ++ "/" ++ Itoa h.ID ++ fileNameComponentSeparator ++ h.Address
        ++ Ext h.PhotoURL ∧
      '/' ∉ (Itoa h.ID ++ fileNameComponentSeparator ++ h.Address ++ Ext h.PhotoURL).data ∧
      (Ext h.PhotoURL).data <:+ h.PhotoURL.data ∧
      (Ext h.PhotoURL = "" ∨ ∃ rest, (Ext h.PhotoURL).data = '.' :: rest ∧ '.' ∉ rest) := by
  have hext : '/' ∉ (Ext h.PhotoURL).data := by
    simp only [Ext]
    exact extScan_no_separator _ [] (by simp)
  have hid := Itoa_chars h.ID
  have hne := Itoa_ne_nil h.ID
  obtain ⟨c, cs, hcs⟩ : ∃ c cs, (Itoa h.ID).data = c :: cs := by
    cases hd : (Itoa h.ID).data with
    | nil => exact absurd hd hne
    | cons c cs => exact ⟨c, cs, rfl⟩
  have hc := not_digit_of_special c (hid c (by simp [hcs]))
  have hrest : '/' ∉ cs := by
    intro hmem
    exact (not_digit_of_special '/' (hid '/' (by simp [hcs, hmem]))).1 rfl
  have hname : (Itoa h.ID ++ fileNameComponentSeparator ++ h.Address ++ Ext h.PhotoURL).data
      = c :: (cs ++ '-' :: (h.Address.data ++ (Ext h.PhotoURL).data)) := by
    simp [String.data_append, hcs, fileNameComponentSeparator]
  have htail : '/' ∉ cs ++ '-' :: (h.Address.data ++ (Ext h.PhotoURL).data) := by
    simp only [List.mem_append, List.mem_cons, not_or]
    exact ⟨hrest, by decide, hsep, hext⟩
  constructor
  · have hclean := Clean_output_child _ c _ hname hc.1 hc.2 htail
    have hjoin : buildPath h = Clean (String.mk ("output/".data
        ++ (Itoa h.ID ++ fileNameComponentSeparator ++ h.Address ++ Ext h.PhotoURL).data)) := by
      simp only [buildPath, Join, outputFolder]
      rw [if_pos (by decide), intercalate_pair]
      congr 1
    rw [hjoin, hclean]
    apply String.ext
    simp [String.data_append, outputFolder]
  · refine ⟨?_, Ext_suffix h.PhotoURL⟩
    rw [hname]
    simp only [List.mem_cons, not_or]
    exact ⟨fun hh => hc.1 hh.symm, htail⟩

theorem buildPath_without_slash_witness :
    buildPath sampleHouse = "output/1-4 Pumpkin Hill Street Antioch, TN 37013.jpg" ∧
      '/' ∉ "1-4 Pumpkin Hill Street Antioch, TN 37013.jpg".data ∧
      Ext sampleHouse.PhotoURL = ".jpg" :=
  ⟨(buildPath_without_slash sampleHouse (by decide)).1,
    (buildPath_without_slash sampleHouse (by decide)).2.1, by decide⟩

/-- Claim C10.  For all integers `page` and `perPage`, `buildUrl page perPage` is the base URL
followed by `?page=`, the decimal `page`, `&per_page=` and the decimal `perPage`, in this
order; `buildUrl 1 20` ends in `houses?page=1&per_page=20`; `pageSize` is 10 and a call
`getPage p` makes exactly one request, for `buildUrl p pageSize`. -/
theorem buildUrl_page_then_per_page (page perPage : Int) (w : World) :
    buildUrl page perPage
        = "http://app-homevision-staging.herokuapp.com/api_project/houses?page=" ++ Itoa page
          ++ "&per_page=" ++ Itoa perPage ∧
      buildUrl 1 20
        = "http://app-homevision-staging.herokuapp.com/api_project/houses?page=1&per_page=20" ∧
      pageSize = 10 ∧
      (getPage page w).2.requests = w.requests ++ [buildUrl page pageSize] :=
  ⟨rfl, by decide, rfl, getPageWith_concurrent_requests pageSize page w⟩

end Houses
